import Mathlib

/-!
Verification of `audioclip_factory/audio_clip_factory.py`.

The repository processes audio clips through an effect pipeline
(normalization, duration-matched looping with an adaptive loudness
convergence loop, volume scaling), merges clips, and composes a speech
track with background music.

Shallow embedding conventions:
- An audio clip is modelled by its observable metadata: sample rate,
  duration in seconds, and peak amplitude.  Machine floats of the source
  are modelled by exact rationals.
- External collaborator effects from the moviepy library are modelled by
  their documented action on that metadata: `AudioNormalize` brings the
  peak to the canonical normalized level 1, `AudioLoop` sets the duration
  to its target, `MultiplyVolume f` multiplies the peak by `f` (the
  factors reached in this code are nonnegative), `subclipped s e` yields
  duration `e - s`, and `CompositeAudioClip` time-aligns its inputs at
  offset 0 and sums sample-wise, so its duration is the maximum input
  duration (its peak is modelled by the sample-wise-sum upper bound, the
  sum of the peaks, and its fps by the maximum input fps).
- A Python exception escaping a function is modelled by `Option.none`
  (in particular the `ZeroDivisionError` raised by
  `min_volume_threshold / detected_volume` when the detected volume is 0),
  and by the dedicated constructor `ConvResult.divByZero` inside the
  convergence loop.
- The unbounded `while` loop of `loop_background_music` is given explicit
  fuel; `ConvResult.fuelOut` marks fuel exhaustion, and theorems show how
  much fuel suffices.  An iteration counter is threaded through so that
  statements can speak about the number of executed iterations.
-/

namespace AudioClipFactory

/-- Observable metadata of a decoded audio clip: sample rate (fps),
duration in seconds, and peak amplitude (`max_volume` in moviepy). -/
structure Buffer where
  rate : ℕ
  duration : ℚ
  peak : ℚ
deriving DecidableEq, Repr

/-- Upper threshold `max_volume_threshold = 0.3` of `loop_background_music`. -/
def maxVolumeThreshold : ℚ := 3/10

/-- Lower threshold `min_volume_threshold = 0.1` of `loop_background_music`. -/
def minVolumeThreshold : ℚ := 1/10

/-- Smoothing factor `smoothing_factor = 0.1` of `loop_background_music`. -/
def smoothingFactor : ℚ := 1/10

/-- Effect of `afx.MultiplyVolume factor` as used by `adjust_volume`:
the peak scales with the factor (all factors reached in this code are
nonnegative), duration and rate are unchanged. -/
def adjust_volume (clip : Buffer) (factor : ℚ) : Buffer :=
  ⟨clip.rate, clip.duration, clip.peak * factor⟩

/-- Effect of `afx.AudioNormalize` as used by `normalize_music`: the peak
is brought to the canonical normalized level 1. -/
def normalize_music (clip : Buffer) : Buffer :=
  ⟨clip.rate, clip.duration, 1⟩

/-- Effect of `clip.subclipped(start, end)`: keeps the samples between the
two instants, so the duration becomes `end - start` (the peak of the kept
part is modelled as the peak of the clip). -/
def subclipped (clip : Buffer) (start stop : ℚ) : Buffer :=
  ⟨clip.rate, stop - start, clip.peak⟩

/-- Effect of `afx.AudioLoop(duration=target)`: repeats or truncates the
clip so that the duration becomes exactly the target. -/
def audioLoop (clip : Buffer) (target : ℚ) : Buffer :=
  ⟨clip.rate, target, clip.peak⟩

/-- One executed body of the `while` loop of `loop_background_music`, on
the pair (detected volume, cumulative volume factor).  The code multiplies
the running `volume_factor` by the correction term and then applies the
whole cumulative factor to the CURRENT clip
(`clip = AudioClipFactory.adjust_volume(clip, volume_factor)`), so the new
detected volume is `detected * volume_factor`. -/
def loopBody (detected volumeFactor : ℚ) : ℚ × ℚ :=
  let vf :=
    if detected > maxVolumeThreshold then
      volumeFactor * (maxVolumeThreshold / detected * (1 - smoothingFactor))
    else
      volumeFactor * (minVolumeThreshold / detected * (1 + smoothingFactor))
  (detected * vf, vf)

/-- Modelled from the spec: the loop body mandated by the design document,
which applies the running cumulative factor to the ORIGINAL (pre-loop-entry)
buffer, whose peak is `originalPeak`, instead of rescaling the current
buffer; so the new detected volume is `originalPeak * volume_factor`. -/
def loopBodySpec (originalPeak detected volumeFactor : ℚ) : ℚ × ℚ :=
  let vf :=
    if detected > maxVolumeThreshold then
      volumeFactor * (maxVolumeThreshold / detected * (1 - smoothingFactor))
    else
      volumeFactor * (minVolumeThreshold / detected * (1 + smoothingFactor))
  (originalPeak * vf, vf)

/-- Result of the volume-convergence `while` loop: normal exit with final
detected volume, final cumulative factor and number of executed iterations;
a `ZeroDivisionError` (detected volume 0 inside the loop); or fuel ran out
(the source has no iteration cap, so the fuel is instrumentation and the
theorems show how much of it suffices). -/
inductive ConvResult
  | ok (detected volumeFactor : ℚ) (iters : ℕ)
  | divByZero
  | fuelOut
deriving DecidableEq, Repr

/-- The `while detected_volume > max_volume_threshold or detected_volume <
min_volume_threshold` loop of `loop_background_music`, with explicit fuel
and an iteration counter.  When the detected volume is 0 the loop is
entered (0 < 0.1) and the division `min_volume_threshold / detected_volume`
raises, modelled by `ConvResult.divByZero`. -/
def convergeLoop : ℕ → ℚ → ℚ → ℕ → ConvResult
  | fuel, detected, volumeFactor, iters =>
    if detected > maxVolumeThreshold ∨ detected < minVolumeThreshold then
      match fuel with
      | 0 => .fuelOut
      | f + 1 =>
        if detected = 0 then .divByZero
        else
          let s := loopBody detected volumeFactor
          convergeLoop f s.1 s.2 (iters + 1)
    else .ok detected volumeFactor iters

/-- The body of `loop_background_music`: trim away the first 15 percent of
the duration, loop to the target duration, then run the volume-convergence
loop starting from `volume_factor = 1.0` and the detected volume of the
looped clip.  A raise inside the loop yields `none`. -/
def loop_background_music (clip : Buffer) (target_duration : ℚ) (fuel : ℕ) :
    Option Buffer :=
  let start := clip.duration * (15/100)
  let clip1 := subclipped clip start clip.duration
  let clip2 := audioLoop clip1 target_duration
  match convergeLoop fuel clip2.peak 1 0 with
  | .ok detected _ _ => some ⟨clip2.rate, clip2.duration, detected⟩
  | _ => none

/-- Action descriptors dispatched by `apply_audio_effects`; every type tag
other than the three recognized ones is collected in `unknown`. -/
inductive Action
  | normalize_music
  | loop_background_music (param : ℚ)
  | volume_percentage (param : ℚ)
  | unknown (tag : String)
deriving DecidableEq, Repr

/-- Dispatch of a single action inside the `for` loop of
`apply_audio_effects`: the three recognized tags call the corresponding
operation, every other tag matches no branch and leaves the clip as is. -/
def applyAction (clip : Buffer) (fuel : ℕ) : Action → Option Buffer
  | .normalize_music => some (normalize_music clip)
  | .loop_background_music param => loop_background_music clip param fuel
  | .volume_percentage param => some (adjust_volume clip param)
  | .unknown _ => some clip

/-- `apply_audio_effects`: fold the actions over the clip in sequence
order; an exception raised by an action propagates out (`none`). -/
def apply_audio_effects (clip : Buffer) (actions : List Action) (fuel : ℕ) :
    Option Buffer :=
  match actions with
  | [] => some clip
  | a :: rest =>
    match applyAction clip fuel a with
    | none => none
    | some c => apply_audio_effects c rest fuel

/-- Recognized type tags of `apply_audio_effects`. -/
def recognizedAction : Action → Bool
  | .unknown _ => false
  | _ => true

/-- `create_audio_clip`: decoding the url is delegated to the external
`AudioFileClip`, modelled by the `decoded` argument; on success the
actions are applied, and the surrounding `try`/`except` turns any
exception (decode failure or a raise inside an action) into `None`. -/
def create_audio_clip (decoded : Option Buffer) (actions : List Action)
    (fuel : ℕ) : Option Buffer :=
  match decoded with
  | none => none
  | some clip => apply_audio_effects clip actions fuel

/-- `merge_audio_clips`: an empty list yields `None`; a nonempty list is
handed to `CompositeAudioClip`, modelled per the conventions above
(duration = maximum input duration, fps = maximum input fps, peak =
sum of the input peaks as the sample-wise-sum bound). -/
def merge_audio_clips (audio_clips : List Buffer) : Option Buffer :=
  match audio_clips with
  | [] => none
  | c :: cs =>
    some ⟨cs.foldl (fun acc x => max acc x.rate) c.rate,
          cs.foldl (fun acc x => max acc x.duration) c.duration,
          (c :: cs).foldr (fun x acc => x.peak + acc) 0⟩

/-- Result of `save_audio_clip`: the code sets `audio_clip.fps = 44100`
before `write_audiofile`, so the written file always carries 44100 Hz. -/
structure SavedAudio where
  fps : ℕ
  duration : ℚ
  peak : ℚ
deriving DecidableEq, Repr

/-- `save_audio_clip`: writes the clip at the fixed rate of 44100 Hz. -/
def save_audio_clip (audio_clip : Buffer) : SavedAudio :=
  ⟨44100, audio_clip.duration, audio_clip.peak⟩

/-- Actions built for the speech asset in `merge_speech_with_music`. -/
def speechActions (speech_volume : ℚ) : List Action :=
  [.normalize_music, .volume_percentage speech_volume]

/-- Actions built for the music asset in `merge_speech_with_music`. -/
def musicActions (speech_duration music_volume : ℚ) : List Action :=
  [.normalize_music, .loop_background_music speech_duration,
   .volume_percentage music_volume]

/-- `merge_speech_with_music`: build the speech clip (abort with `None` on
failure), build the music clip looped to the speech duration (abort with
`None` on failure), merge the two, save the merge at 44100 Hz and return
a clip decoded from the saved file.  The mp3 pre-conversion of the speech
source is an external transcoding step absorbed into `speechDecoded`. -/
def merge_speech_with_music (speechDecoded musicDecoded : Option Buffer)
    (speech_volume music_volume : ℚ) (fuel : ℕ) : Option Buffer :=
  match create_audio_clip speechDecoded (speechActions speech_volume) fuel with
  | none => none
  | some speech_clip =>
    match create_audio_clip musicDecoded
        (musicActions speech_clip.duration music_volume) fuel with
    | none => none
    | some music_clip =>
      match merge_audio_clips [music_clip, speech_clip] with
      | none => none
      | some merged =>
        let saved := save_audio_clip merged
        some ⟨saved.fps, saved.duration, saved.peak⟩

/-! Theorems. -/

/-- Unfolding lemma: the convergence loop exits at once when the detected
volume is inside the band. -/
theorem convergeLoop_in_band (fuel : ℕ) (p vf : ℚ) (n : ℕ)
    (h : ¬(p > maxVolumeThreshold ∨ p < minVolumeThreshold)) :
    convergeLoop fuel p vf n = ConvResult.ok p vf n := by
  rw [convergeLoop.eq_def]
  simp [h]

/-- Unfolding lemma: one iteration of the convergence loop on an
out-of-band nonzero detected volume. -/
theorem convergeLoop_step (f : ℕ) (p vf : ℚ) (n : ℕ)
    (h : p > maxVolumeThreshold ∨ p < minVolumeThreshold) (hp : p ≠ 0) :
    convergeLoop (f + 1) p vf n =
      convergeLoop f (loopBody p vf).1 (loopBody p vf).2 (n + 1) := by
  rw [convergeLoop.eq_def]
  simp [h, hp]

/-- Core lemma about the convergence loop as entered by the code
(`volume_factor = 1.0`): for a positive detected volume and any positive
fuel, the loop exits normally after at most one iteration, with a positive
final cumulative factor, and the final detected volume equals the entry
volume times that factor and lies inside the band. -/
theorem converge_from_entry (p : ℚ) (hp : 0 < p) (fuel : ℕ) (hf : 1 ≤ fuel) :
    ∃ vf n, convergeLoop fuel p 1 0 = ConvResult.ok (p * vf) vf n ∧
      minVolumeThreshold ≤ p * vf ∧ p * vf ≤ maxVolumeThreshold ∧
      n ≤ 1 ∧ 0 < vf := by
  by_cases h : p > maxVolumeThreshold ∨ p < minVolumeThreshold
  · obtain ⟨f, rfl⟩ : ∃ f, fuel = f + 1 := ⟨fuel - 1, by omega⟩
    rw [convergeLoop_step f p 1 0 h hp.ne']
    rcases h with hh | hl
    · have h2 : (loopBody p 1).2 = 27/100 / p := by
        simp only [loopBody]
        rw [if_pos hh, maxVolumeThreshold, smoothingFactor]
        field_simp
        ring
      have h1 : (loopBody p 1).1 = 27/100 := by
        simp only [loopBody]
        rw [if_pos hh, maxVolumeThreshold, smoothingFactor]
        field_simp
        ring
      have hcan : p * (27/100 / p) = 27/100 := by
        field_simp
        ring
      refine ⟨27/100 / p, 1, ?_, ?_, ?_, le_refl 1, div_pos (by norm_num) hp⟩
      · rw [h1, h2, hcan]
        exact convergeLoop_in_band f (27/100) (27/100 / p) 1
          (by rw [maxVolumeThreshold, minVolumeThreshold]; norm_num)
      · rw [hcan, minVolumeThreshold]; norm_num
      · rw [hcan, maxVolumeThreshold]; norm_num
    · have hnh : ¬ p > maxVolumeThreshold := by
        rw [maxVolumeThreshold]
        rw [minVolumeThreshold] at hl
        intro hcon
        linarith
      have h2 : (loopBody p 1).2 = 11/100 / p := by
        simp only [loopBody]
        rw [if_neg hnh, minVolumeThreshold, smoothingFactor]
        field_simp
        ring
      have h1 : (loopBody p 1).1 = 11/100 := by
        simp only [loopBody]
        rw [if_neg hnh, minVolumeThreshold, smoothingFactor]
        field_simp
        ring
      have hcan : p * (11/100 / p) = 11/100 := by
        field_simp
        ring
      refine ⟨11/100 / p, 1, ?_, ?_, ?_, le_refl 1, div_pos (by norm_num) hp⟩
      · rw [h1, h2, hcan]
        exact convergeLoop_in_band f (11/100) (11/100 / p) 1
          (by rw [maxVolumeThreshold, minVolumeThreshold]; norm_num)
      · rw [hcan, minVolumeThreshold]; norm_num
      · rw [hcan, maxVolumeThreshold]; norm_num
  · push_neg at h
    refine ⟨1, 0, ?_, ?_, ?_, by omega, one_pos⟩
    · rw [mul_one]
      exact convergeLoop_in_band fuel p 1 0 (by push_neg; exact h)
    · rw [mul_one]; exact h.2
    · rw [mul_one]; exact h.1

/-- Unfolding lemma: a first loop iteration on detected volume 0 raises
the division by zero. -/
theorem convergeLoop_zero_detected (f : ℕ) (vf : ℚ) (n : ℕ) :
    convergeLoop (f + 1) 0 vf n = ConvResult.divByZero := by
  have hcond : (0:ℚ) > maxVolumeThreshold ∨ (0:ℚ) < minVolumeThreshold :=
    Or.inr (by rw [minVolumeThreshold]; norm_num)
  rw [convergeLoop.eq_def]
  simp [hcond]

/-- Unfolding lemma: `loop_background_music` as a case split on the
convergence loop run on the peak of the clip. -/
theorem loop_background_music_eq (B : Buffer) (T : ℚ) (fuel : ℕ) :
    loop_background_music B T fuel =
      match convergeLoop fuel B.peak 1 0 with
      | ConvResult.ok d _ _ => some ⟨B.rate, T, d⟩
      | _ => none := by
  cases h : convergeLoop fuel B.peak 1 0 <;>
    simp [loop_background_music, subclipped, audioLoop, h]

/-- Claim C1: for every entry of the convergence loop with a positive
detected volume, the loop returns with a final detected volume inside the
band `[minVolumeThreshold, maxVolumeThreshold] = [0.10, 0.30]`, and it
never runs unboundedly: at most one iteration is executed whatever the
input, so it never returns an out-of-band volume silently (in exact
arithmetic the failure branch of the claimed disjunction is vacuous and
the loop of the source needs no iteration cap for positive peaks). -/
theorem converge_returns_in_band (p : ℚ) (hp : 0 < p) (fuel : ℕ)
    (hf : 1 ≤ fuel) :
    ∃ q vf n, convergeLoop fuel p 1 0 = ConvResult.ok q vf n ∧
      minVolumeThreshold ≤ q ∧ q ≤ maxVolumeThreshold ∧ n ≤ 1 := by
  obtain ⟨vf, n, hres, hlo, hhi, hn, _⟩ := converge_from_entry p hp fuel hf
  exact ⟨p * vf, vf, n, hres, hlo, hhi, hn⟩

/-- Witness for C1 at the concrete entry volume 0.60 with fuel 20. -/
theorem converge_returns_in_band_witness :
    (0 : ℚ) < 3/5 ∧ (1 : ℕ) ≤ 20 ∧
    ∃ q vf n, convergeLoop 20 (3/5) 1 0 = ConvResult.ok q vf n ∧
      minVolumeThreshold ≤ q ∧ q ≤ maxVolumeThreshold ∧ n ≤ 1 :=
  ⟨by norm_num, by norm_num,
    converge_returns_in_band (3/5) (by norm_num) 20 (by norm_num)⟩

/-- Claim C2 (code bug): on a silent clip (peak 0) the loop of the source
is entered (0 is below the lower threshold) and the first iteration
divides the lower threshold by the zero detected volume, raising a
`ZeroDivisionError` instead of returning the buffer unchanged with zero
iterations: `loop_background_music` on a silent clip fails. -/
theorem converge_silence_divides_by_zero :
    loop_background_music ⟨44100, 40, 0⟩ 12 20 = none ∧
    convergeLoop 20 0 1 0 = ConvResult.divByZero := by
  have h20 : convergeLoop 20 0 1 0 = ConvResult.divByZero :=
    convergeLoop_zero_detected 19 1 0
  refine ⟨?_, h20⟩
  simp [loop_background_music_eq, h20]

/-- Counterexample for C3: the loop body of the source applies the
cumulative factor to the CURRENT clip (`loopBody`), which differs from the
body mandated by the spec (`loopBodySpec`, recompute from the original
buffer) at any state whose current detected volume differs from the
original peak, here original peak 0.60 and current detected volume 0.50:
the code produces new peak 0.27, the spec body 0.324. -/
theorem loopBody_ne_loopBodySpec :
    loopBody (1/2) 1 ≠ loopBodySpec (3/5) (1/2) 1 := by
  have hgt : (1:ℚ)/2 > maxVolumeThreshold := by rw [maxVolumeThreshold]; norm_num
  have h1 : loopBody (1/2) 1 = (27/100, 27/50) := by
    simp only [loopBody]
    rw [if_pos hgt, maxVolumeThreshold, smoothingFactor]
    norm_num
  have h2 : loopBodySpec (3/5) (1/2) 1 = (81/250, 27/50) := by
    simp only [loopBodySpec]
    rw [if_pos hgt, maxVolumeThreshold, smoothingFactor]
    norm_num
  rw [h1, h2]
  intro hcon
  rw [Prod.mk.injEq] at hcon
  norm_num at hcon

/-- Claim C3 as amended: each iteration rescales the buffer produced by
the previous iteration by the running cumulative factor (see
`loopBody_ne_loopBodySpec`); nevertheless, because the loop always exits
after at most one iteration when entered with `volume_factor = 1`, the
returned detected volume still equals the pre-loop-entry peak times the
final cumulative factor. -/
theorem converge_final_peak_eq_entry_mul_factor (p : ℚ) (hp : 0 < p)
    (fuel : ℕ) (hf : 1 ≤ fuel) :
    ∃ vf n, convergeLoop fuel p 1 0 = ConvResult.ok (p * vf) vf n := by
  obtain ⟨vf, n, hres, _, _, _, _⟩ := converge_from_entry p hp fuel hf
  exact ⟨vf, n, hres⟩

/-- Witness for the amended C3 at the concrete entry volume 0.60. -/
theorem converge_final_peak_eq_entry_mul_factor_witness :
    (0 : ℚ) < 3/5 ∧ (1 : ℕ) ≤ 20 ∧
    ∃ vf n, convergeLoop 20 (3/5) 1 0 = ConvResult.ok ((3/5) * vf) vf n :=
  ⟨by norm_num, by norm_num,
    converge_final_peak_eq_entry_mul_factor (3/5) (by norm_num) 20
      (by norm_num)⟩

/-- Claim C4: with the band constants of the source and entry volume 0.60,
the loop computes the cumulative factor (0.30 / 0.60) * 0.90 = 0.45 in its
first iteration, which yields the new peak 0.60 * 0.45 = 0.27, inside the
band, so the loop stops after exactly one iteration with final factor
0.45. -/
theorem converge_scenario_entry_060 :
    convergeLoop 20 (3/5) 1 0 = ConvResult.ok (27/100) (9/20) 1 ∧
    (27 : ℚ)/100 = (3/5) * (9/20) := by
  constructor
  · have hgt : (3:ℚ)/5 > maxVolumeThreshold := by rw [maxVolumeThreshold]; norm_num
    have hcond : (3:ℚ)/5 > maxVolumeThreshold ∨ (3:ℚ)/5 < minVolumeThreshold :=
      Or.inl hgt
    have hbody : loopBody (3/5) 1 = (27/100, 9/20) := by
      simp only [loopBody]
      rw [if_pos hgt, maxVolumeThreshold, smoothingFactor]
      norm_num
    show convergeLoop (19 + 1) (3/5) 1 0 = _
    rw [convergeLoop_step 19 (3/5) 1 0 hcond (by norm_num), hbody]
    exact convergeLoop_in_band 19 (27/100) (9/20) 1
      (by rw [maxVolumeThreshold, minVolumeThreshold]; norm_num)
  · norm_num

/-- Claim C5: `loop_background_music` first trims the clip to start at
`0.15 * durationSeconds` (the trimmed clip keeps the remaining
85 percent), then loops the remainder so that the duration equals exactly
the target, and only then runs the loudness convergence, which leaves the
duration untouched: any returned clip has exactly the target duration. -/
theorem loop_background_music_duration_exact (B : Buffer) (T : ℚ)
    (hT : 0 < T) (fuel : ℕ) :
    (subclipped B (B.duration * (15/100)) B.duration).duration
        = B.duration - B.duration * (15/100) ∧
    (audioLoop (subclipped B (B.duration * (15/100)) B.duration) T).duration
        = T ∧
    ∀ b, loop_background_music B T fuel = some b → b.duration = T := by
  refine ⟨rfl, rfl, ?_⟩
  intro b hb
  rw [loop_background_music_eq] at hb
  split at hb
  · cases hb
    rfl
  · cases hb

/-- Witness for C5: a 40-second source looped to 12 seconds (the trim
discards the first 6 seconds) yields a 12-second clip. -/
theorem loop_background_music_duration_exact_witness :
    (0 : ℚ) < 12 ∧
    ((subclipped ⟨44100, 40, 3/5⟩ ((40 : ℚ) * (15/100)) 40).duration
        = (40 : ℚ) - 40 * (15/100) ∧
     (audioLoop (subclipped ⟨44100, 40, 3/5⟩ ((40 : ℚ) * (15/100)) 40) 12).duration
        = 12 ∧
     ∀ b, loop_background_music ⟨44100, 40, 3/5⟩ 12 20 = some b →
        b.duration = 12) :=
  ⟨by norm_num,
    loop_background_music_duration_exact ⟨44100, 40, 3/5⟩ 12 (by norm_num) 20⟩

/-- Unfolding lemma for a single step of `apply_audio_effects`. -/
theorem apply_audio_effects_cons (clip : Buffer) (a : Action)
    (rest : List Action) (fuel : ℕ) :
    apply_audio_effects clip (a :: rest) fuel =
      match applyAction clip fuel a with
      | none => none
      | some c => apply_audio_effects c rest fuel := rfl

/-- Counterexample for C6: the claim that no action raises fails on the
code: the `loop_background_music` action applied to a silent clip divides
by zero inside the convergence loop, so the pipeline raises (modelled by
`none`) instead of completing. -/
theorem apply_audio_effects_action_raises :
    apply_audio_effects ⟨44100, 10, 0⟩ [Action.loop_background_music 12] 20
      = none := by
  rw [apply_audio_effects_cons]
  have h : applyAction ⟨44100, 10, 0⟩ 20 (Action.loop_background_music 12)
      = none := by
    have h20 : convergeLoop 20 0 1 0 = ConvResult.divByZero :=
      convergeLoop_zero_detected 19 1 0
    simp [applyAction, loop_background_music_eq, h20]
  rw [h]

/-- Claim C6 as amended: the pipeline applies the recognized actions in
sequence order and every action with an unrecognized type tag is a silent
no-op, processing continuing at the next action, so a run is equal to the
run on the recognized actions alone; however an action can raise: see
`apply_audio_effects_action_raises` for the `loop_background_music` action
on a silent clip. -/
theorem apply_audio_effects_skips_unrecognized (clip : Buffer)
    (actions : List Action) (fuel : ℕ) :
    apply_audio_effects clip actions fuel =
      apply_audio_effects clip (actions.filter recognizedAction) fuel := by
  induction actions generalizing clip with
  | nil => rfl
  | cons a rest ih =>
    cases a with
    | unknown tag =>
      rw [apply_audio_effects_cons,
        show List.filter recognizedAction (Action.unknown tag :: rest)
          = List.filter recognizedAction rest by
            simp [List.filter_cons, recognizedAction]]
      exact ih clip
    | normalize_music =>
      rw [show List.filter recognizedAction (Action.normalize_music :: rest)
            = Action.normalize_music :: List.filter recognizedAction rest by
              simp [List.filter_cons, recognizedAction],
        apply_audio_effects_cons, apply_audio_effects_cons]
      cases happly : applyAction clip fuel Action.normalize_music with
      | none => rfl
      | some c => exact ih c
    | loop_background_music param =>
      rw [show List.filter recognizedAction
              (Action.loop_background_music param :: rest)
            = Action.loop_background_music param
                :: List.filter recognizedAction rest by
              simp [List.filter_cons, recognizedAction],
        apply_audio_effects_cons, apply_audio_effects_cons]
      cases happly : applyAction clip fuel (Action.loop_background_music param) with
      | none => rfl
      | some c => exact ih c
    | volume_percentage param =>
      rw [show List.filter recognizedAction
              (Action.volume_percentage param :: rest)
            = Action.volume_percentage param
                :: List.filter recognizedAction rest by
              simp [List.filter_cons, recognizedAction],
        apply_audio_effects_cons, apply_audio_effects_cons]
      cases happly : applyAction clip fuel (Action.volume_percentage param) with
      | none => rfl
      | some c => exact ih c

/-- Fold lemma: the duration fold of `merge_audio_clips` dominates its
seed and every list element, and is attained by the seed or an element. -/
theorem foldl_max_duration (cs : List Buffer) (q : ℚ) :
    q ≤ cs.foldl (fun acc x => max acc x.duration) q ∧
    (∀ x ∈ cs, x.duration ≤ cs.foldl (fun acc x => max acc x.duration) q) ∧
    (cs.foldl (fun acc x => max acc x.duration) q = q ∨
      ∃ x ∈ cs, cs.foldl (fun acc x => max acc x.duration) q = x.duration) := by
  induction cs generalizing q with
  | nil => simp
  | cons c cs ih =>
    obtain ⟨h1, h2, h3⟩ := ih (max q c.duration)
    refine ⟨le_trans (le_max_left _ _) h1, ?_, ?_⟩
    · intro x hx
      rcases List.mem_cons.mp hx with rfl | hx
      · exact le_trans (le_max_right _ _) h1
      · exact h2 x hx
    · rcases h3 with h | ⟨x, hx, hfx⟩
      · rcases max_choice q c.duration with hm | hm
        · exact Or.inl (h.trans hm)
        · exact Or.inr ⟨c, List.mem_cons_self c cs, h.trans hm⟩
      · exact Or.inr ⟨x, List.mem_cons_of_mem c hx, hfx⟩

/-- Claim C7: merging no clips yields `None` (not an error), and merging a
nonempty list yields a composite clip whose duration is the maximum of the
input durations (the inputs are time-aligned at offset 0 and summed
sample-wise, see `merge_audio_clips`). -/
theorem merge_audio_clips_empty_and_duration :
    merge_audio_clips [] = none ∧
    ∀ c cs, ∃ b, merge_audio_clips (c :: cs) = some b ∧
      (∀ x ∈ c :: cs, x.duration ≤ b.duration) ∧
      (∃ x ∈ c :: cs, b.duration = x.duration) := by
  refine ⟨rfl, ?_⟩
  intro c cs
  obtain ⟨h1, h2, h3⟩ := foldl_max_duration cs c.duration
  have hb : merge_audio_clips (c :: cs) =
      some ⟨cs.foldl (fun acc x => max acc x.rate) c.rate,
            cs.foldl (fun acc x => max acc x.duration) c.duration,
            (c :: cs).foldr (fun x acc => x.peak + acc) 0⟩ := rfl
  refine ⟨_, hb, ?_, ?_⟩
  · intro x hx
    rcases List.mem_cons.mp hx with rfl | hx
    · exact h1
    · exact h2 x hx
  · rcases h3 with h | ⟨x, hx, hfx⟩
    · exact ⟨c, List.mem_cons_self c cs, h⟩
    · exact ⟨x, List.mem_cons_of_mem c hx, hfx⟩

/-- Witness for C7 on two concrete clips of durations 5 and 7. -/
theorem merge_audio_clips_empty_and_duration_witness :
    ∃ b, merge_audio_clips [⟨44100, 5, 1⟩, ⟨22050, 7, 2⟩] = some b ∧
      (∀ x ∈ [(⟨44100, 5, 1⟩ : Buffer), ⟨22050, 7, 2⟩],
        x.duration ≤ b.duration) ∧
      (∃ x ∈ [(⟨44100, 5, 1⟩ : Buffer), ⟨22050, 7, 2⟩],
        b.duration = x.duration) :=
  merge_audio_clips_empty_and_duration.2 ⟨44100, 5, 1⟩ [⟨22050, 7, 2⟩]

/-- Unfolding lemma: `merge_speech_with_music` in monadic form. -/
theorem merge_speech_with_music_eq (sd md : Option Buffer) (sv mv : ℚ)
    (fuel : ℕ) :
    merge_speech_with_music sd md sv mv fuel =
      (create_audio_clip sd (speechActions sv) fuel).bind (fun speech_clip =>
        (create_audio_clip md (musicActions speech_clip.duration mv)
            fuel).bind (fun music_clip =>
          (merge_audio_clips [music_clip, speech_clip]).map (fun merged =>
            ⟨(save_audio_clip merged).fps, (save_audio_clip merged).duration,
             (save_audio_clip merged).peak⟩))) := by
  cases hs : create_audio_clip sd (speechActions sv) fuel with
  | none => simp [merge_speech_with_music, hs]
  | some sc =>
    cases hm : create_audio_clip md (musicActions sc.duration mv) fuel with
    | none => simp [merge_speech_with_music, hs, hm]
    | some mc =>
      cases hmg : merge_audio_clips [mc, sc] with
      | none => simp [merge_speech_with_music, hs, hm, hmg]
      | some merged => simp [merge_speech_with_music, hs, hm, hmg, save_audio_clip]

/-- Claim C8: the composition yields an output only when the speech source
decoded, the music source decoded, the speech pipeline succeeded and the
music pipeline succeeded; any failure among them aborts the whole
composition and nothing of the output is produced (decode failures and raises inside the
pipelines are caught inside `create_audio_clip` and surface as `none`, a
returned failure value, never an uncaught exception). -/
theorem merge_speech_with_music_all_parts (sd md : Option Buffer)
    (sv mv : ℚ) (fuel : ℕ) (b : Buffer)
    (h : merge_speech_with_music sd md sv mv fuel = some b) :
    (∃ sb, sd = some sb) ∧ (∃ mb, md = some mb) ∧
    ∃ sc, create_audio_clip sd (speechActions sv) fuel = some sc ∧
      ∃ mc, create_audio_clip md (musicActions sc.duration mv) fuel
        = some mc := by
  rw [merge_speech_with_music_eq] at h
  rw [Option.bind_eq_some] at h
  obtain ⟨sc, hs, h⟩ := h
  rw [Option.bind_eq_some] at h
  obtain ⟨mc, hm, _⟩ := h
  refine ⟨?_, ?_, sc, hs, mc, hm⟩
  · cases sd with
    | none => rw [create_audio_clip] at hs; cases hs
    | some s => exact ⟨s, rfl⟩
  · cases md with
    | none => rw [create_audio_clip] at hm; cases hm
    | some m => exact ⟨m, rfl⟩

/-- Witness for C8 on a concrete successful composition. -/
theorem merge_speech_with_music_all_parts_witness :
    (∃ sb, (some (⟨22050, 12, 1/2⟩ : Buffer)) = some sb) ∧
    (∃ mb, (some (⟨8000, 40, 7/10⟩ : Buffer)) = some mb) ∧
    ∃ sc, create_audio_clip (some ⟨22050, 12, 1/2⟩) (speechActions 1) 20
        = some sc ∧
      ∃ mc, create_audio_clip (some ⟨8000, 40, 7/10⟩)
          (musicActions sc.duration (1/2)) 20 = some mc :=
  merge_speech_with_music_all_parts (some ⟨22050, 12, 1/2⟩)
    (some ⟨8000, 40, 7/10⟩) 1 (1/2) 20 ⟨44100, 12, 227/200⟩
    (by
      have h20 : convergeLoop 20 1 1 0 = ConvResult.ok (27/100) (27/100) 1 := by
        have hgt : (1:ℚ) > maxVolumeThreshold := by
          rw [maxVolumeThreshold]; norm_num
        have hbody : loopBody 1 1 = (27/100, 27/100) := by
          simp only [loopBody]
          rw [if_pos hgt, maxVolumeThreshold, smoothingFactor]
          norm_num
        show convergeLoop (19 + 1) 1 1 0 = _
        rw [convergeLoop_step 19 1 1 0 (Or.inl hgt) (by norm_num), hbody]
        exact convergeLoop_in_band 19 (27/100) (27/100) 1
          (by rw [maxVolumeThreshold, minVolumeThreshold]; norm_num)
      simp [merge_speech_with_music, create_audio_clip, apply_audio_effects,
        applyAction, normalize_music, adjust_volume, loop_background_music_eq,
        speechActions, musicActions, h20, merge_audio_clips, save_audio_clip]
      norm_num)

/-- Claim C9: a successful run of the compose-and-save path returns a clip
written and re-decoded at the fixed 44100 Hz sample rate, whatever the
sample rates of the decoded inputs, because `save_audio_clip` sets the
fps to 44100 before writing. -/
theorem merge_speech_with_music_rate_44100 (sd md : Option Buffer)
    (sv mv : ℚ) (fuel : ℕ) (b : Buffer)
    (h : merge_speech_with_music sd md sv mv fuel = some b) :
    b.rate = 44100 ∧ ∀ clip, (save_audio_clip clip).fps = 44100 := by
  refine ⟨?_, fun _ => rfl⟩
  rw [merge_speech_with_music_eq] at h
  rw [Option.bind_eq_some] at h
  obtain ⟨sc, _, h⟩ := h
  rw [Option.bind_eq_some] at h
  obtain ⟨mc, _, h⟩ := h
  rw [Option.map_eq_some'] at h
  obtain ⟨merged, _, hb⟩ := h
  rw [← hb]
  rfl

/-- Witness for C9 on a concrete composition whose inputs carry sample
rates 11025 and 16000: the output rate is still 44100. -/
theorem merge_speech_with_music_rate_44100_witness :
    Buffer.rate ⟨44100, 9, 227/200⟩ = 44100 ∧
    ∀ clip, (save_audio_clip clip).fps = 44100 :=
  merge_speech_with_music_rate_44100 (some ⟨11025, 9, 1/3⟩)
    (some ⟨16000, 25, 4/5⟩) 1 (1/2) 20 ⟨44100, 9, 227/200⟩
    (by
      have h20 : convergeLoop 20 1 1 0 = ConvResult.ok (27/100) (27/100) 1 := by
        have hgt : (1:ℚ) > maxVolumeThreshold := by
          rw [maxVolumeThreshold]; norm_num
        have hbody : loopBody 1 1 = (27/100, 27/100) := by
          simp only [loopBody]
          rw [if_pos hgt, maxVolumeThreshold, smoothingFactor]
          norm_num
        show convergeLoop (19 + 1) 1 1 0 = _
        rw [convergeLoop_step 19 1 1 0 (Or.inl hgt) (by norm_num), hbody]
        exact convergeLoop_in_band 19 (27/100) (27/100) 1
          (by rw [maxVolumeThreshold, minVolumeThreshold]; norm_num)
      simp [merge_speech_with_music, create_audio_clip, apply_audio_effects,
        applyAction, normalize_music, adjust_volume, loop_background_music_eq,
        speechActions, musicActions, h20, merge_audio_clips, save_audio_clip]
      norm_num)

/-- Claim C10: when the asset carries no actions (the `actions` key is
absent or empty, modelled by the empty list) and the source decodes, the
clip-creation operation returns the decoded clip unchanged: the empty
action sequence is the identity of the effect pipeline. -/
theorem create_audio_clip_no_actions (clip : Buffer) (fuel : ℕ) :
    create_audio_clip (some clip) [] fuel = some clip ∧
    apply_audio_effects clip [] fuel = some clip :=
  ⟨rfl, rfl⟩

end AudioClipFactory
